import Mathlib

/-!
Verification development for the COVID-19 ETL pipeline
(`airflow/scripts/extract.py`, `airflow/scripts/transform.py`,
`airflow/scripts/load.py`, `airflow/main.py`).

The transform stage is embedded as pure functions over lists: wide CSV
tables become `WideTable`, `pd.melt` becomes `melt`, the pandas left
merges become `mergeMetric`, and the groupby/diff logic becomes
`countryAgg` / `dailyChanges`.  Numeric cells are rationals (ℚ); pandas
NaN produced by a left join with no match is an explicit `Option`.
Fallible steps (missing raw file, unparseable CSV, unparseable date
header) are `Option`-valued, mirroring the Python try/except structure.
-/

namespace CovidETL

/-! ### Calendar dates, parsed from `M/D/YY` headers (`pd.to_datetime(..., format='%m/%d/%y')`) -/

structure Date where
  year : Nat
  month : Nat
  day : Nat
deriving DecidableEq, Repr

/-- Two-digit-year pivot used by `%y`: 00-68 → 2000-2068, 69-99 → 1969-1999. -/
def centuryOfYY (y : Nat) : Nat :=
  if y ≤ 68 then 2000 + y else 1900 + y

def isLeap (y : Nat) : Bool :=
  (y % 4 == 0 && y % 100 != 0) || y % 400 == 0

def monthLength (leap : Bool) (m : Nat) : Nat :=
  if m = 2 then (if leap then 29 else 28)
  else if m = 4 ∨ m = 6 ∨ m = 9 ∨ m = 11 then 30
  else 31

/-- Split a character list on a separator character. -/
def splitOnChar (sep : Char) : List Char → List (List Char)
  | [] => [[]]
  | c :: cs =>
    let rest := splitOnChar sep cs
    if c = sep then [] :: rest
    else match rest with
      | [] => [[c]]
      | g :: gs => (c :: g) :: gs

def digitVal (c : Char) : Option Nat :=
  if '0' ≤ c ∧ c ≤ '9' then some (c.toNat - '0'.toNat) else none

def natOfDigits : List Char → Option Nat
  | [] => none
  | cs => cs.foldl (fun acc c => match acc, digitVal c with
      | some n, some d => some (10 * n + d)
      | _, _ => none) (some 0)

/-- Parse an `M/D/YY` date-column header; `none` models the
`pd.to_datetime` exception that aborts the transform run. -/
def parseMDY (s : String) : Option Date :=
  match splitOnChar '/' s.data with
  | [ms, ds, ys] =>
    match natOfDigits ms, natOfDigits ds, natOfDigits ys with
    | some m, some d, some y2 =>
      if 1 ≤ m ∧ m ≤ 12 ∧ 1 ≤ d ∧ d ≤ monthLength (isLeap (centuryOfYY y2)) m ∧ ys.length ≤ 2 then
        some ⟨centuryOfYY y2, m, d⟩
      else none
    | _, _, _ => none
  | _ => none

/-- Chronological order on parsed dates (how pandas orders datetimes). -/
def dateLe (a b : Date) : Prop :=
  a.year < b.year ∨ (a.year = b.year ∧
    (a.month < b.month ∨ (a.month = b.month ∧ a.day ≤ b.day)))

instance : DecidableRel dateLe := fun a b => by
  unfold dateLe; infer_instance

/-! ### Wide tables and the wide-to-long reshape (transform.py lines 40-68) -/

/-- One row of a raw wide CSV: the four identity columns
`Province/State`, `Country/Region`, `Lat`, `Long`, then one numeric cell
per date column.  `province = none` models a NaN `Province/State`. -/
structure WideRow where
  province : Option String
  country : String
  lat : ℚ
  long : ℚ
  values : List ℚ
deriving DecidableEq, Repr

structure WideTable where
  dateCols : List String
  rows : List WideRow
deriving DecidableEq, Repr

/-- A melted row before date parsing (`pd.melt` output). -/
structure MeltRow where
  province : Option String
  country : String
  lat : ℚ
  long : ℚ
  dateStr : String
  value : ℚ
deriving DecidableEq, Repr

/-- One row of a reshaped long table (after `pd.to_datetime` on `date`). -/
structure LongRow where
  province : Option String
  country : String
  lat : ℚ
  long : ℚ
  date : Date
  value : ℚ
deriving DecidableEq, Repr

/-- `pd.melt(df, id_vars=['Province/State','Country/Region','Lat','Long'],
var_name='date', value_name=category)`: the output is column-major, one
block of `rows.length` rows per date column. -/
def melt (w : WideTable) : List MeltRow :=
  (List.range w.dateCols.length).flatMap (fun j =>
    w.rows.map (fun r =>
      { province := r.province, country := r.country, lat := r.lat, long := r.long,
        dateStr := w.dateCols.getD j "", value := r.values.getD j 0 }))

/-- All-or-nothing traversal: any failure aborts (models a raised exception). -/
def mapOption (f : α → Option β) : List α → Option (List β)
  | [] => some []
  | a :: l =>
    match f a, mapOption f l with
    | some b, some bs => some (b :: bs)
    | _, _ => none

def parseMelt (m : MeltRow) : Option LongRow :=
  (parseMDY m.dateStr).map (fun d =>
    { province := m.province, country := m.country, lat := m.lat, long := m.long,
      date := d, value := m.value })

/-- Reshape one category's wide table to long format and parse the date
column; `none` when any date header fails to parse (hard error for the run). -/
def reshape (w : WideTable) : Option (List LongRow) :=
  mapOption parseMelt (melt w)

/-! ### Join & reconcile (transform.py lines 70-114) -/

/-- The merge key `['Province/State', 'Country/Region', 'date']`
(lat/long excluded).  pandas matches NaN join keys with NaN, so the key
keeps the `Option`. -/
def LongRow.key (r : LongRow) : Option String × String × Date :=
  (r.province, r.country, r.date)

/-- `pd.merge(left, right[[key cols, value col]], on=key, how='left')`
restricted to pulling one metric column from the right table: every left
element yields one output pair per matching right row (fan-out), or a
single `none`-valued pair when nothing matches (NaN). -/
def mergeMetric (left : List α) (right : List LongRow)
    (keyOf : α → Option String × String × Date) : List (α × Option ℚ) :=
  left.flatMap (fun a =>
    match right.filter (fun b => b.key = keyOf a) with
    | [] => [(a, none)]
    | ms => ms.map (fun b => (a, some b.value)))

/-- A row of `transformed_data` right after the merges, before `fillna`. -/
structure RawObs where
  province : Option String
  country : String
  lat : ℚ
  long : ℚ
  date : Date
  confirmed : ℚ
  deaths : Option ℚ
  recovered : Option ℚ
deriving DecidableEq, Repr

/-- A reconciled observation row (after `fillna` and the calculated fields). -/
structure Obs where
  province : String
  country : String
  lat : ℚ
  long : ℚ
  date : Date
  confirmed : ℚ
  deaths : ℚ
  recovered : ℚ
  active : ℚ
  mortality_rate : ℚ
deriving DecidableEq, Repr

/-- `np.where(confirmed > 0, deaths / confirmed * 100, 0)`. -/
def calcMortality (confirmed deaths : ℚ) : ℚ :=
  if confirmed > 0 then deaths / confirmed * 100 else 0

/-- `fillna({'deaths': 0, 'recovered': 0, 'Province/State': 'Unknown'})`
followed by the `active` and `mortality_rate` calculated fields. -/
def finishObs (r : RawObs) : Obs :=
  let d := r.deaths.getD 0
  let rc := r.recovered.getD 0
  { province := r.province.getD "Unknown", country := r.country,
    lat := r.lat, long := r.long, date := r.date,
    confirmed := r.confirmed, deaths := d, recovered := rc,
    active := r.confirmed - d - rc,
    mortality_rate := calcMortality r.confirmed d }

/-- Steps 2-3 of `transform_data`: start from the confirmed long table,
left-join deaths and recovered when present (a wholly absent category
becomes a constant-0 column instead), fill remaining NaNs, and compute
the derived fields. -/
def mergeAll (conf : List LongRow)
    (deaths? recov? : Option (List LongRow)) : List Obs :=
  let withDeaths : List (LongRow × Option ℚ) :=
    match deaths? with
    | some ds => mergeMetric conf ds LongRow.key
    | none => conf.map (fun c => (c, some 0))
  let withBoth : List ((LongRow × Option ℚ) × Option ℚ) :=
    match recov? with
    | some rs => mergeMetric withDeaths rs (fun p => p.1.key)
    | none => withDeaths.map (fun p => (p, some 0))
  withBoth.map (fun p =>
    finishObs { province := p.1.1.province, country := p.1.1.country,
                lat := p.1.1.lat, long := p.1.1.long, date := p.1.1.date,
                confirmed := p.1.1.value, deaths := p.1.2, recovered := p.2 })

/-! ### Country-level aggregation (transform.py lines 121-135) -/

structure CountryRow where
  country : String
  date : Date
  confirmed : ℚ
  deaths : ℚ
  recovered : ℚ
  active : ℚ
  mortality_rate : ℚ
deriving DecidableEq, Repr

/-- Group key `['Country/Region', 'date']`. -/
def Obs.ckey (o : Obs) : String × Date := (o.country, o.date)

def sumBy (l : List Obs) (f : Obs → ℚ) : ℚ := (l.map f).sum

/-- `groupby(['Country/Region','date']).agg(sum).reset_index()` followed
by the country-level mortality recomputation.  Group keys are enumerated
in first-appearance order (pandas sorts them; only the row order of the
output differs, which no property below depends on). -/
def countryAgg (obs : List Obs) : List CountryRow :=
  ((obs.map Obs.ckey).dedup).map (fun k =>
    let g := obs.filter (fun o => o.ckey = k)
    let c := sumBy g Obs.confirmed
    let d := sumBy g Obs.deaths
    { country := k.1, date := k.2, confirmed := c, deaths := d,
      recovered := sumBy g Obs.recovered, active := sumBy g Obs.active,
      mortality_rate := calcMortality c d })

/-! ### Sort and daily changes (transform.py lines 141-155) -/

/-- Group key `['Country/Region', 'Province/State']` (province already
filled to a plain string by `fillna`). -/
def Obs.gkey (o : Obs) : String × String := (o.country, o.province)

/-- `sort_values(['Country/Region', 'Province/State', 'date'])`:
lexicographic order on the three sort columns.  (pandas' quicksort and
this insertion sort may order fully-tied rows differently; both are
deterministic and every property below is stated about the embedding's
sorted output.) -/
def obsLe (a b : Obs) : Prop :=
  a.country < b.country ∨ (a.country = b.country ∧
    (a.province < b.province ∨ (a.province = b.province ∧ dateLe a.date b.date)))

instance : DecidableRel obsLe := fun a b => by
  unfold obsLe; infer_instance

instance : IsTrans Obs obsLe :=
  ⟨by
    intro a b c hab hbc
    unfold obsLe at hab hbc ⊢
    rcases hab with h1 | ⟨e1, hab2⟩
    · rcases hbc with h2 | ⟨e2, _⟩
      · exact Or.inl (lt_trans h1 h2)
      · exact Or.inl (e2 ▸ h1)
    · rcases hbc with h2 | ⟨e2, hbc2⟩
      · exact Or.inl (e1.symm ▸ h2)
      · refine Or.inr ⟨e1.trans e2, ?_⟩
        rcases hab2 with p1 | ⟨ep1, hd1⟩
        · rcases hbc2 with p2 | ⟨ep2, _⟩
          · exact Or.inl (lt_trans p1 p2)
          · exact Or.inl (ep2 ▸ p1)
        · rcases hbc2 with p2 | ⟨ep2, hd2⟩
          · exact Or.inl (ep1.symm ▸ p2)
          · refine Or.inr ⟨ep1.trans ep2, ?_⟩
            unfold dateLe at hd1 hd2 ⊢
            omega⟩

instance : IsTotal Obs obsLe :=
  ⟨by
    intro a b
    unfold obsLe
    rcases lt_trichotomy a.country b.country with h | h | h
    · exact Or.inl (Or.inl h)
    · rcases lt_trichotomy a.province b.province with hp | hp | hp
      · exact Or.inl (Or.inr ⟨h, Or.inl hp⟩)
      · have hdt : dateLe a.date b.date ∨ dateLe b.date a.date := by
          unfold dateLe
          omega
        rcases hdt with hd | hd
        · exact Or.inl (Or.inr ⟨h, Or.inr ⟨hp, hd⟩⟩)
        · exact Or.inr (Or.inr ⟨h.symm, Or.inr ⟨hp.symm, hd⟩⟩)
      · exact Or.inr (Or.inr ⟨h.symm, Or.inl hp⟩)
    · exact Or.inr (Or.inl h)⟩

def sortObs (l : List Obs) : List Obs := l.insertionSort obsLe

/-- A row of `daily_data`: all columns of the observation plus the three
`new_*` columns. -/
structure DeltaRow where
  base : Obs
  new_confirmed : ℚ
  new_deaths : ℚ
  new_recovered : ℚ
deriving DecidableEq, Repr

/-- `groupby(...)[col].diff().fillna(0)` then `.clip(lower=0)` for one
cell: no in-group predecessor gives NaN, filled to 0; otherwise the
difference against the predecessor, clipped at 0. -/
def clipDiff (cur : ℚ) (p? : Option Obs) (f : Obs → ℚ) : ℚ :=
  match p? with
  | none => 0
  | some p => max 0 (cur - f p)

def mkDelta (r : Obs) (p? : Option Obs) : DeltaRow :=
  { base := r,
    new_confirmed := clipDiff r.confirmed p? Obs.confirmed,
    new_deaths := clipDiff r.deaths p? Obs.deaths,
    new_recovered := clipDiff r.recovered p? Obs.recovered }

/-- The most recent earlier row with the same `(country, province)`
group key — the `diff()` predecessor under pandas `groupby` semantics. -/
def lastSame (k : String × String) (pre : List Obs) : Option Obs :=
  (pre.filter (fun r => r.gkey = k)).getLast?

def dailyAux (pre : List Obs) : List Obs → List DeltaRow
  | [] => []
  | r :: rest => mkDelta r (lastSame r.gkey pre) :: dailyAux (pre ++ [r]) rest

/-- Step 6 of `transform_data`: per-group first differences, filled and
clipped, over the rows in their (sorted) dataframe order. -/
def dailyChanges (l : List Obs) : List DeltaRow := dailyAux [] l

/-! ### The whole transform stage (transform.py `transform_data`) -/

/-- A raw CSV file on disk: either parseable tabular data, or a file
(e.g. empty or truncated) on which `pd.read_csv` raises. -/
inductive RawFile
  | table (w : WideTable)
  | bad
deriving DecidableEq

/-- The raw-data directory: one optional file per category;
`none` means `os.path.exists` is false and the category is skipped. -/
structure RawDir where
  confirmed : Option RawFile
  deaths : Option RawFile
  recovered : Option RawFile
deriving DecidableEq

/-- Read one category inside the step-1 loop.  Outer `none` is a raised
exception (unreadable file or unparseable date header) that aborts the
whole run; `some none` is an absent file, skipped with a warning. -/
def readCategory : Option RawFile → Option (Option (List LongRow))
  | none => some none
  | some RawFile.bad => none
  | some (RawFile.table w) => (reshape w).map some

/-- The three datasets written to the processed directory. -/
structure TransformOut where
  full : List Obs
  country : List CountryRow
  daily : List DeltaRow
deriving DecidableEq

/-- `transform_data`: `none` models `return False` (missing 'confirmed'
dataset, or any exception caught by the outer handler); `some` carries
the three output datasets of a successful run. -/
def transform_data (raw : RawDir) : Option TransformOut :=
  match readCategory raw.confirmed with
  | none => none
  | some conf? =>
    match readCategory raw.deaths with
    | none => none
    | some deaths? =>
      match readCategory raw.recovered with
      | none => none
      | some recov? =>
        match conf? with
        | none => none
        | some conf =>
          let full := mergeAll conf deaths? recov?
          some { full := full, country := countryAgg full,
                 daily := dailyChanges (sortObs full) }

/-- The boolean the stage returns to its caller. -/
def transform_success (raw : RawDir) : Bool := (transform_data raw).isSome

/-! ### The extract stage (extract.py `extract_data`) and the
orchestrator's gate (main.py lines 45-48) -/

/-- A Python return value as the caller sees it: `None` (a function body
that ends without `return`) or a bool. -/
inductive PyRet
  | pynone
  | pybool (b : Bool)
deriving DecidableEq, Repr

/-- Python truthiness, as tested by `if not extract_success`. -/
def truthy : PyRet → Bool
  | PyRet.pynone => false
  | PyRet.pybool b => b

/-- What happened for one category URL inside the download loop. -/
inductive DlOutcome
  | httpError
  | emptyFile
  | unparseable
  | success
deriving DecidableEq, Repr

def countsSuccess : DlOutcome → Bool
  | DlOutcome.success => true
  | _ => false

/-- One run of the extract stage: whether a config was provided (or the
`CONFIG` import succeeded), and the per-category download outcomes. -/
structure ExtractRun where
  configAvailable : Bool
  outcomes : List DlOutcome
deriving DecidableEq

/-- The `successful_downloads` counter written into the metadata file. -/
def successful_downloads (e : ExtractRun) : Nat :=
  e.outcomes.countP countsSuccess

/-- `extract_data`'s return value: `return False` when no config is
available; otherwise the function runs the download loop, writes the
metadata file, and ends without a `return` statement, so Python returns
`None`. -/
def extract_data (e : ExtractRun) : PyRet :=
  if e.configAvailable then PyRet.pynone else PyRet.pybool false

/-- main.py lines 45-48: the pipeline proceeds past extract iff
`extract_success` is truthy. -/
def run_pipeline_proceeds (e : ExtractRun) : Bool :=
  truthy (extract_data e)

/-! ### The load stage (load.py `load_data`)

The destination store is modelled as committed table state.  The
essential structural fact of the source is that it uses three different
connections: the psycopg2 `conn` (autocommit off) executes only the
`CREATE TABLE IF NOT EXISTS` schema statements, which become visible at
`conn.commit()`; every `pg_hook.run(...)` opens its own connection and
commits immediately; and `df.to_sql` goes through the SQLAlchemy engine,
which also commits on its own.  `conn.rollback()` therefore discards
only the pending schema statements. -/

/-- Provenance-tagged contents of one destination table. -/
inductive TabVal
  | prior
  | schemaEmpty
  | run (rows : Nat)
deriving DecidableEq, Repr

inductive Tbl
  | full_data
  | country_summary
  | daily_changes
deriving DecidableEq, Repr

/-- Committed state of the destination store. -/
structure Store where
  full_data : Option TabVal
  country_summary : Option TabVal
  daily_changes : Option TabVal
  etl_metadata_exists : Bool
  audit_load_entries : Nat
deriving DecidableEq, Repr

def Store.get (s : Store) : Tbl → Option TabVal
  | Tbl.full_data => s.full_data
  | Tbl.country_summary => s.country_summary
  | Tbl.daily_changes => s.daily_changes

def Store.set (s : Store) : Tbl → Option TabVal → Store
  | Tbl.full_data, v => { s with full_data := v }
  | Tbl.country_summary, v => { s with country_summary := v }
  | Tbl.daily_changes, v => { s with daily_changes := v }

/-- The store operations `load_data` performs, in source order.  A
failure script `fails : StoreOp → Bool` says which of them raise. -/
inductive StoreOp
  | getConn
  | createSchema
  | dropTable (t : Tbl)
  | toSql (t : Tbl)
  | countRows (t : Tbl)
  | createViews
  | createIndexes
  | checkMetaTable
  | auditInsert
  | commitTxn
deriving DecidableEq, Repr

/-- In-flight state of one `load_data` run: the committed store, the
schema statements pending in the `conn` transaction, and the
`rows_loaded` counter. -/
structure LSt where
  store : Store
  pendingMeta : Bool
  pendingTbls : List Tbl
  rowsLoaded : Nat
deriving DecidableEq, Repr

/-- Sequencing with exception propagation: the error carries the state
at the raise (the pending transaction is simply never applied, which is
what `conn.rollback()` amounts to). -/
def andThen (r : Except LSt LSt) (f : LSt → Except LSt LSt) : Except LSt LSt :=
  match r with
  | Except.error e => Except.error e
  | Except.ok s => f s

def lstep (fails : StoreOp → Bool) (o : StoreOp) (f : LSt → LSt) (s : LSt) :
    Except LSt LSt :=
  if fails o then Except.error s else Except.ok (f s)

/-- `CREATE TABLE IF NOT EXISTS` executed on the `conn` cursor: tables
absent from the committed catalog are buffered for creation at commit.
(If such a table is later recreated by `to_sql` before the commit, the
real database serializes the two DDLs through locking; that interleaving
is outside this embedding and outside every property stated below.) -/
def bufferSchema (s : LSt) : LSt :=
  { s with pendingMeta := ¬ s.store.etl_metadata_exists,
           pendingTbls := [Tbl.full_data, Tbl.country_summary, Tbl.daily_changes].filter
             (fun t => s.store.get t = none) }

def applyTbl (st : Store) (t : Tbl) : Store :=
  match st.get t with
  | none => st.set t (some TabVal.schemaEmpty)
  | some _ => st

/-- `conn.commit()`: publish the pending schema statements. -/
def applyPending (s : LSt) : LSt :=
  { store := { (s.pendingTbls.foldl applyTbl s.store) with
                 etl_metadata_exists := s.store.etl_metadata_exists || s.pendingMeta },
    pendingMeta := false, pendingTbls := [], rowsLoaded := s.rowsLoaded }

/-- The per-file body of the load loop (load.py lines 63-103): a missing
file is skipped with a warning; otherwise `DROP TABLE IF EXISTS` (hook
connection, autocommitted), `df.to_sql(..., if_exists='replace')`
(engine connection, autocommitted), then `SELECT COUNT(*)` feeding
`rows_loaded`. -/
def processFile (fails : StoreOp → Bool) (t : Tbl) (content? : Option Nat)
    (s : LSt) : Except LSt LSt :=
  match content? with
  | none => Except.ok s
  | some n =>
    andThen (lstep fails (StoreOp.dropTable t)
        (fun s => { s with store := s.store.set t none }) s) (fun s =>
    andThen (lstep fails (StoreOp.toSql t)
        (fun s => { s with store := s.store.set t (some (TabVal.run n)) }) s) (fun s =>
    lstep fails (StoreOp.countRows t)
        (fun s => { s with rowsLoaded := s.rowsLoaded + n }) s))

structure LoadOutcome where
  store : Store
  success : Bool
deriving DecidableEq, Repr

/-- `load_data`: `files` gives the row count of each processed CSV that
exists (`none` = file absent, skipped).  `success = false` means the
except-branch ran: `conn.rollback()` then `raise AirflowException(...)`.
The `check_if_table_exists` helper catches its own query errors and
returns `False`, so a failing existence check only skips the audit
insert. -/
def load_data (files : Tbl → Option Nat) (st : Store) (fails : StoreOp → Bool) :
    LoadOutcome :=
  let init : LSt := ⟨st, false, [], 0⟩
  let r :=
    andThen (lstep fails StoreOp.getConn id init) (fun s =>
    andThen (lstep fails StoreOp.createSchema bufferSchema s) (fun s =>
    andThen (processFile fails Tbl.full_data (files Tbl.full_data) s) (fun s =>
    andThen (processFile fails Tbl.country_summary (files Tbl.country_summary) s) (fun s =>
    andThen (processFile fails Tbl.daily_changes (files Tbl.daily_changes) s) (fun s =>
    andThen (lstep fails StoreOp.createViews id s) (fun s =>
    andThen (lstep fails StoreOp.createIndexes id s) (fun s =>
    andThen
      (if (¬ fails StoreOp.checkMetaTable) ∧ s.store.etl_metadata_exists then
        lstep fails StoreOp.auditInsert (fun s =>
          { s with store := { s.store with
              audit_load_entries := s.store.audit_load_entries + 1 } }) s
      else Except.ok s) (fun s =>
    lstep fails StoreOp.commitTxn applyPending s))))))))
  match r with
  | Except.ok s => ⟨s.store, true⟩
  | Except.error s => ⟨s.store, false⟩

/-! ### Pipeline state over two runs (for the idempotence property)

The stages are sequenced as the Airflow DAG sequences them
(`extract_task >> transform_task >> load_task`).  File contents of the
raw and processed directories are carried explicitly; the two free-text
metadata files (which embed timestamps) are not part of any compared
output. -/

/-- The processed-data directory: presence and contents of the three
output CSVs. -/
structure ProcessedDir where
  full : Option (List Obs)
  country : Option (List CountryRow)
  daily : Option (List DeltaRow)
deriving DecidableEq

structure PipeState where
  raw : RawDir
  pd : ProcessedDir
  db : Store
deriving DecidableEq

/-- One category of the extract loop: a successful download overwrites
the raw file with the remote content (which may itself be empty or
unparseable — extract writes the body before verifying it); a failed
request writes nothing, leaving any previous raw file in place. -/
def fetchCat (remote cur : Option RawFile) : Option RawFile :=
  match remote with
  | some f => some f
  | none => cur

def extract_run (remote : RawDir) (s : PipeState) : PipeState :=
  { s with raw := ⟨fetchCat remote.confirmed s.raw.confirmed,
                   fetchCat remote.deaths s.raw.deaths,
                   fetchCat remote.recovered s.raw.recovered⟩ }

/-- A successful transform overwrites all three processed CSVs; a failed
one (which in this embedding fails before its first write) leaves the
processed directory untouched. -/
def transform_run (s : PipeState) : PipeState :=
  match transform_data s.raw with
  | some out => { s with pd := ⟨some out.full, some out.country, some out.daily⟩ }
  | none => s

def filesOf (pd : ProcessedDir) : Tbl → Option Nat
  | Tbl.full_data => pd.full.map List.length
  | Tbl.country_summary => pd.country.map List.length
  | Tbl.daily_changes => pd.daily.map List.length

/-- The load stage on the environment's happy path (no store failures). -/
def load_run (s : PipeState) : PipeState :=
  { s with db := (load_data (filesOf s.pd) s.db (fun _ => false)).store }

def pipeline_run (remote : RawDir) (s : PipeState) : PipeState :=
  load_run (transform_run (extract_run remote s))

/-- What each destination table holds after a failure-free `load_data`:
the run's data when its file exists, otherwise the pre-existing table
(created empty by the schema step when it did not exist at all). -/
def loadedTable (files : Tbl → Option Nat) (st : Store) (t : Tbl) : Option TabVal :=
  match files t with
  | some n => some (TabVal.run n)
  | none =>
    match st.get t with
    | some v => some v
    | none => some TabVal.schemaEmpty

/-! ### The spec-side Delta formula (for the refinement statement of the
Delta property): the first row of a series gets 0 in each `new_*`
column; every later row gets `max 0 (X[i] - X[i-1])` against its
immediate predecessor in the series.  `p?` carries that predecessor. -/

def specSeriesDeltas : Option Obs → List Obs → List DeltaRow
  | _, [] => []
  | p?, r :: rest =>
    { base := r,
      new_confirmed :=
        match p? with
        | none => 0
        | some p => max 0 (r.confirmed - p.confirmed),
      new_deaths :=
        match p? with
        | none => 0
        | some p => max 0 (r.deaths - p.deaths),
      new_recovered :=
        match p? with
        | none => 0
        | some p => max 0 (r.recovered - p.recovered) } :: specSeriesDeltas (some r) rest

/-! ### Identity keys for the join invariant -/

/-- The full row identity of a reconciled row: RegionKey (primary
region, normalized sub-region, lat, long) plus the date. -/
def Obs.idKey (o : Obs) : String × String × ℚ × ℚ × Date :=
  (o.country, o.province, o.lat, o.long, o.date)

/-- The same identity read off a confirmed long row (sub-region
normalized the way `fillna` will normalize it). -/
def LongRow.idKeyFilled (c : LongRow) : String × String × ℚ × ℚ × Date :=
  (c.country, c.province.getD "Unknown", c.lat, c.long, c.date)

/-- The single right-table match pandas finds for a join key when the
right table's keys are unique. -/
def rlookup (rs : List LongRow) (k : Option String × String × Date) : Option ℚ :=
  ((rs.filter (fun b => b.key = k)).head?).map LongRow.value

/-! ### Concrete inputs used by counterexamples and witnesses -/

/-- A store in which all four tables exist from a previous generation. -/
def priorStore : Store :=
  ⟨some TabVal.prior, some TabVal.prior, some TabVal.prior, true, 7⟩

/-- All three processed CSVs present, with their row counts. -/
def exFilesAll : Tbl → Option Nat
  | Tbl.full_data => some 120
  | Tbl.country_summary => some 40
  | Tbl.daily_changes => some 120

/-- The `country_summary` CSV is missing from the processed directory. -/
def exFilesPartial : Tbl → Option Nat
  | Tbl.full_data => some 120
  | Tbl.country_summary => none
  | Tbl.daily_changes => some 120

/-- Failure script: the `df.to_sql` write into `country_summary` raises
(store write failure mid-run). -/
def failCountryWrite (o : StoreOp) : Bool :=
  o = StoreOp.toSql Tbl.country_summary

/-- An extract run whose three downloads all succeed. -/
def exExtract : ExtractRun :=
  ⟨true, [DlOutcome.success, DlOutcome.success, DlOutcome.success]⟩

def exDate : Date := ⟨2020, 1, 22⟩

/-- A one-row, one-date-column wide table. -/
def exWide : WideTable := ⟨["1/22/20"], [⟨some "P", "C", 1, 2, [7]⟩]⟩

/-- The long table `reshape` produces from `exWide`. -/
def exWideLong : List LongRow := [⟨some "P", "C", 1, 2, exDate, 7⟩]

/-- One confirmed long row with a negative cumulative count (raw CSV
cells are unconstrained numerics). -/
def exConfNeg : List LongRow := [⟨some "P", "C", 1, 2, exDate, -1⟩]

/-- One deaths long row for the same join key. -/
def exDeathsPos : List LongRow := [⟨some "P", "C", 10, 20, exDate, 5⟩]

/-- The single reconciled row produced from `exConfNeg` and `exDeathsPos`. -/
def exNegObs : Obs :=
  finishObs ⟨some "P", "C", 1, 2, exDate, -1, some 5, some 0⟩

/-- A one-row confirmed table. -/
def exConfC2 : List LongRow := [⟨some "P", "C", 1, 2, exDate, 5⟩]

/-- A deaths table holding two rows with the same
(sub-region, primary-region, date) join key (e.g. the same region listed
twice with different coordinates). -/
def exDeathsC2 : List LongRow :=
  [⟨some "P", "C", 10, 20, exDate, 1⟩, ⟨some "P", "C", 30, 40, exDate, 2⟩]

/-- The (RegionKey, date) identity of `exConfC2`'s single row. -/
def exIdKeyC2 : String × String × ℚ × ℚ × Date := ("C", "P", 1, 2, exDate)

/-- A one-row confirmed table with a null sub-region. -/
def exConfW : List LongRow := [⟨none, "C", 1, 2, exDate, 3⟩]

/-- A one-row deaths table joining to `exConfW`'s row. -/
def exDeathsW : List LongRow := [⟨none, "C", 9, 9, exDate, 1⟩]

/-- The (RegionKey, date) identity of `exConfW`'s row after fill. -/
def exIdKeyW : String × String × ℚ × ℚ × Date := ("C", "Unknown", 1, 2, exDate)

/-- The per-category metric value a reconciled row picks up for a join
key: the unique right-row's value (NaN→0 when unmatched) when the
category is present, the synthesized constant 0 when it is absent. -/
def metricVal (t? : Option (List LongRow)) (k : Option String × String × Date) : Option ℚ :=
  match t? with
  | some rs => rlookup rs k
  | none => some 0

/-- The reconciled row produced from `exConfW` with both other
categories absent. -/
def exObsW : Obs :=
  finishObs ⟨none, "C", 1, 2, exDate, 3, some 0, some 0⟩

/-- A single concrete reconciled observation row. -/
def exMini : Obs := ⟨"Unknown", "C", 0, 0, exDate, 4, 1, 1, 2, 25⟩

/-- The country summary row `countryAgg` produces from `[exMini]`. -/
def exAggRow : CountryRow :=
  { country := "C", date := exDate,
    confirmed := sumBy [exMini] Obs.confirmed,
    deaths := sumBy [exMini] Obs.deaths,
    recovered := sumBy [exMini] Obs.recovered,
    active := sumBy [exMini] Obs.active,
    mortality_rate := calcMortality (sumBy [exMini] Obs.confirmed) (sumBy [exMini] Obs.deaths) }

/-- The default row used for out-of-range `getD` reads. -/
def defWideRow : WideRow := ⟨none, "", 0, 0, []⟩

/-! ## Helper lemmas -/

@[simp] lemma andThen_ok (s : LSt) (f : LSt → Except LSt LSt) :
    andThen (Except.ok s) f = f s := rfl

@[simp] lemma andThen_error (s : LSt) (f : LSt → Except LSt LSt) :
    andThen (Except.error s) f = Except.error s := rfl

@[simp] lemma lstep_noFail (o : StoreOp) (f : LSt → LSt) (s : LSt) :
    lstep (fun _ => false) o f s = Except.ok (f s) := rfl

/-- When `f` is injective-in-effect on `l` (its images are nodup),
exactly one element maps to the image of a member. -/
lemma length_filter_eq_one_of_nodup_map {α β : Type} [DecidableEq β] (f : α → β)
    (l : List α) (h : (l.map f).Nodup) (k : β) (c : α) (hc : c ∈ l) (hck : f c = k) :
    (l.filter (fun x => f x = k)).length = 1 := by
  induction l with
  | nil => cases hc
  | cons a l ih =>
    rw [List.map_cons, List.nodup_cons] at h
    by_cases ha : f a = k
    · have hnil : l.filter (fun x => f x = k) = [] := by
        refine List.filter_eq_nil_iff.mpr (fun x hx => ?_)
        simp only [decide_eq_true_eq]
        intro hfx
        exact h.1 (by rw [ha, ← hfx]; exact List.mem_map_of_mem f hx)
      simp [List.filter_cons, ha, hnil]
    · have hcl : c ∈ l := by
        rcases List.mem_cons.mp hc with rfl | hcl
        · exact absurd hck ha
        · exact hcl
      simpa [List.filter_cons, ha] using ih h.2 hcl

/-- No element maps to an image that no member has. -/
lemma length_filter_eq_zero_of_not_mem {α β : Type} [DecidableEq β] (f : α → β)
    (l : List α) (k : β) (h : ∀ c ∈ l, f c ≠ k) :
    (l.filter (fun x => f x = k)).length = 0 := by
  rw [List.length_eq_zero]
  exact List.filter_eq_nil_iff.mpr (fun x hx => by
    simp only [decide_eq_true_eq]
    exact h x hx)

lemma load_noFail_spec (files : Tbl → Option Nat) (st : Store) :
    load_data files st (fun _ => false) =
      ⟨{ full_data := loadedTable files st Tbl.full_data,
         country_summary := loadedTable files st Tbl.country_summary,
         daily_changes := loadedTable files st Tbl.daily_changes,
         etl_metadata_exists := true,
         audit_load_entries := st.audit_load_entries +
           (if st.etl_metadata_exists then 1 else 0) }, true⟩ := by
  obtain ⟨f?, c?, d?, me, au⟩ := st
  cases hF : files Tbl.full_data <;> cases hC : files Tbl.country_summary <;>
    cases hD : files Tbl.daily_changes <;> cases f? <;> cases c? <;> cases d? <;>
    cases me <;>
    simp [load_data, processFile, lstep, andThen, bufferSchema, applyPending, applyTbl,
          Store.get, Store.set, loadedTable, hF, hC, hD, List.filter, List.foldl]

lemma loadedTable_isSome (files : Tbl → Option Nat) (st : Store) (t : Tbl) :
    (loadedTable files st t).isSome := by
  unfold loadedTable
  cases files t <;> [skip; rfl]
  cases st.get t <;> rfl

lemma loadedTable_stable (files : Tbl → Option Nat) (st st2 : Store) (t : Tbl)
    (h : st2.get t = loadedTable files st t) :
    loadedTable files st2 t = loadedTable files st t := by
  unfold loadedTable at h ⊢
  cases hf : files t
  · rw [hf] at h
    rw [h]
    cases st.get t <;> rfl
  · rfl

lemma mapOption_length {α β : Type} (f : α → Option β) (l : List α) :
    ∀ out : List β, mapOption f l = some out → out.length = l.length := by
  induction l with
  | nil =>
    intro out h
    cases h
    rfl
  | cons a l ih =>
    intro out h
    unfold mapOption at h
    cases hf : f a <;> cases hm : mapOption f l <;> rw [hf, hm] at h <;> cases h
    simp [ih _ hm]

lemma mapOption_getElem {α β : Type} (f : α → Option β) (l : List α) :
    ∀ out : List β, mapOption f l = some out →
      ∀ i : Nat, out[i]? = (l[i]?).bind f := by
  induction l with
  | nil =>
    intro out h i
    cases h
    simp
  | cons a l ih =>
    intro out h i
    unfold mapOption at h
    cases hf : f a <;> cases hm : mapOption f l <;> rw [hf, hm] at h <;> cases h
    cases i with
    | zero => simp [hf]
    | succ n => simpa using ih _ hm n

lemma flatMap_range_length {β : Type} (f : Nat → List β) (M : Nat)
    (h : ∀ k, (f k).length = M) : ∀ n, ((List.range n).flatMap f).length = n * M := by
  intro n
  induction n with
  | zero => simp
  | succ n ih =>
    rw [List.range_succ, List.flatMap_append, List.length_append, ih]
    simp [h n, Nat.succ_mul]

lemma flatMap_range_getElem {β : Type} (f : Nat → List β) (M : Nat)
    (h : ∀ k, (f k).length = M) :
    ∀ n j i, j < n → i < M → ((List.range n).flatMap f)[M * j + i]? = (f j)[i]? := by
  intro n
  induction n with
  | zero => exact fun j i hj _ => absurd hj (Nat.not_lt_zero j)
  | succ n ih =>
    intro j i hj hi
    rw [List.range_succ, List.flatMap_append, List.getElem?_append,
        flatMap_range_length f M h n]
    by_cases hjn : j < n
    · have hlt : M * j + i < n * M := by
        have h1 : M * j + i < M * (j + 1) := by
          have : M * (j + 1) = M * j + M := by ring
          omega
        have h2 : M * (j + 1) ≤ M * n := Nat.mul_le_mul_left M hjn
        have h3 : M * n = n * M := Nat.mul_comm M n
        omega
      rw [if_pos hlt]
      exact ih j i hjn hi
    · obtain rfl : j = n := by omega
      have hge : ¬ M * j + i < j * M := by
        rw [Nat.mul_comm]
        omega
      rw [if_neg hge]
      have hsub : M * j + i - j * M = i := by
        rw [Nat.mul_comm]
        omega
      rw [hsub]
      simp

/-- With unique join keys on the right, a key matches at most one row. -/
lemma filter_key_single (rs : List LongRow) (h : (rs.map LongRow.key).Nodup)
    (k : Option String × String × Date) :
    rs.filter (fun b => b.key = k) = [] ∨
      ∃ b, rs.filter (fun b => b.key = k) = [b] ∧ b.key = k := by
  induction rs with
  | nil => exact Or.inl rfl
  | cons a rs ih =>
    rw [List.map_cons, List.nodup_cons] at h
    by_cases ha : a.key = k
    · right
      refine ⟨a, ?_, ha⟩
      have hnil : rs.filter (fun b => b.key = k) = [] :=
        List.filter_eq_nil_iff.mpr (fun x hx => by
          simp only [decide_eq_true_eq]
          intro hxk
          exact h.1 (by
            rw [ha, ← hxk]
            exact List.mem_map_of_mem LongRow.key hx))
      simp [List.filter_cons, ha, hnil]
    · rcases ih h.2 with hnil | ⟨b, hb, hbk⟩
      · left
        simp [List.filter_cons, ha, hnil]
      · right
        exact ⟨b, by simp [List.filter_cons, ha, hb], hbk⟩

/-- Under unique right keys, the pandas left merge is exactly a map over
the left table, pairing each row with its unique lookup. -/
lemma mergeMetric_eq_map {α : Type} (left : List α) (rs : List LongRow)
    (keyOf : α → Option String × String × Date)
    (h : (rs.map LongRow.key).Nodup) :
    mergeMetric left rs keyOf = left.map (fun a => (a, rlookup rs (keyOf a))) := by
  induction left with
  | nil => rfl
  | cons a l ih =>
    unfold mergeMetric at ih ⊢
    rw [List.flatMap_cons, ih, List.map_cons]
    unfold rlookup
    rcases filter_key_single rs h (keyOf a) with hnil | ⟨b, hb, _⟩
    · rw [hnil]
      rfl
    · rw [hb]
      rfl

/-- Steps 2-3 collapse (under unique right keys) to one map over the
confirmed backbone. -/
lemma mergeAll_eq_map (conf : List LongRow) (deaths? recov? : Option (List LongRow))
    (hd : ∀ ds, deaths? = some ds → (ds.map LongRow.key).Nodup)
    (hr : ∀ rs, recov? = some rs → (rs.map LongRow.key).Nodup) :
    mergeAll conf deaths? recov? =
      conf.map (fun c => finishObs
        ⟨c.province, c.country, c.lat, c.long, c.date, c.value,
          metricVal deaths? c.key, metricVal recov? c.key⟩) := by
  unfold mergeAll
  cases deaths? with
  | none =>
    cases recov? with
    | none =>
      dsimp only
      rw [List.map_map, List.map_map]
      rfl
    | some rs =>
      dsimp only
      rw [mergeMetric_eq_map _ rs _ (hr rs rfl), List.map_map, List.map_map]
      rfl
  | some ds =>
    cases recov? with
    | none =>
      dsimp only
      rw [mergeMetric_eq_map conf ds LongRow.key (hd ds rfl), List.map_map, List.map_map]
      rfl
    | some rs =>
      dsimp only
      rw [mergeMetric_eq_map conf ds LongRow.key (hd ds rfl),
          mergeMetric_eq_map _ rs _ (hr rs rfl), List.map_map, List.map_map]
      rfl

lemma melt_length (w : WideTable) :
    (melt w).length = w.dateCols.length * w.rows.length := by
  unfold melt
  exact flatMap_range_length _ w.rows.length (fun k => by simp) _

lemma melt_getElem (w : WideTable) (j i : Nat) (hj : j < w.dateCols.length)
    (hi : i < w.rows.length) :
    (melt w)[w.rows.length * j + i]? =
      some { province := (w.rows.getD i defWideRow).province,
             country := (w.rows.getD i defWideRow).country,
             lat := (w.rows.getD i defWideRow).lat,
             long := (w.rows.getD i defWideRow).long,
             dateStr := w.dateCols.getD j "",
             value := (w.rows.getD i defWideRow).values.getD j 0 } := by
  unfold melt
  rw [flatMap_range_getElem _ w.rows.length (fun k => by simp) _ j i hj hi,
      List.getElem?_map, List.getElem?_eq_getElem hi]
  simp [List.getD_eq_getElem?_getD, List.getElem?_eq_getElem hi]

lemma mkDelta_eq_spec (r : Obs) (p? : Option Obs) :
    mkDelta r p? =
      { base := r,
        new_confirmed :=
          match p? with
          | none => 0
          | some p => max 0 (r.confirmed - p.confirmed),
        new_deaths :=
          match p? with
          | none => 0
          | some p => max 0 (r.deaths - p.deaths),
        new_recovered :=
          match p? with
          | none => 0
          | some p => max 0 (r.recovered - p.recovered) } := by
  cases p? <;> rfl

lemma lastSame_append_eq (k : String × String) (pre : List Obs) (r : Obs)
    (h : r.gkey = k) : lastSame k (pre ++ [r]) = some r := by
  unfold lastSame
  rw [List.filter_append]
  have hone : [r].filter (fun x => x.gkey = k) = [r] := by
    simp [List.filter_cons, h]
  rw [hone, List.getLast?_concat]

lemma lastSame_append_ne (k : String × String) (pre : List Obs) (r : Obs)
    (h : ¬ r.gkey = k) : lastSame k (pre ++ [r]) = lastSame k pre := by
  unfold lastSame
  rw [List.filter_append]
  have hnil : [r].filter (fun x => x.gkey = k) = [] := by
    simp [List.filter_cons, h]
  rw [hnil, List.append_nil]

/-- Restricting the groupby-diff output to one group key yields exactly
the per-series scan, with the state's entry for that key as the carried
predecessor. -/
lemma dailyAux_filter (k : String × String) :
    ∀ (l pre : List Obs),
      (dailyAux pre l).filter (fun d => d.base.gkey = k) =
        specSeriesDeltas (lastSame k pre) (l.filter (fun r => r.gkey = k)) := by
  intro l
  induction l with
  | nil =>
    intro pre
    rfl
  | cons r rest ih =>
    intro pre
    unfold dailyAux
    by_cases hk : r.gkey = k
    · rw [hk]
      simp only [List.filter_cons]
      rw [if_pos (decide_eq_true
        (show (mkDelta r (lastSame k pre)).base.gkey = k from hk))]
      rw [if_pos (decide_eq_true hk)]
      have tail := ih (pre ++ [r])
      rw [lastSame_append_eq k pre r hk] at tail
      rw [tail]
      rfl
    · simp only [List.filter_cons]
      rw [if_neg (show ¬ (decide ((mkDelta r (lastSame r.gkey pre)).base.gkey = k) = true) from by
            simp only [decide_eq_true_eq]
            exact hk),
          if_neg (show ¬ (decide (r.gkey = k) = true) from by
            simp only [decide_eq_true_eq]
            exact hk)]
      rw [ih (pre ++ [r]), lastSame_append_ne k pre r hk]

/-! ## Claims -/

/-- **C3** (code_bug evidence). The claim says `extract_data` returns an
aggregate boolean that is true exactly when downloads were counted
successful, consumed by the orchestrator to decide whether the pipeline
proceeds.  In the code, the function body ends without a `return`
statement, so every run with a config available returns `None`; the only
explicit return is `False`.  Hence the returned value is never the
boolean `True` — `if not extract_success` in `run_pipeline` (main.py
lines 45-48) is always taken and the pipeline never proceeds past
extract, even when all three downloads succeed, contradicting the claim
and the function's own docstring ("True if extraction was successful"). -/
theorem extract_return_never_truthy (e : ExtractRun) :
    extract_data e ≠ PyRet.pybool true ∧ run_pipeline_proceeds e = false := by
  unfold extract_data run_pipeline_proceeds truthy extract_data
  cases e.configAvailable <;> simp

/-- Witness for C3: a run in which all three category downloads are
counted successful still yields a non-true return and a halted pipeline. -/
theorem extract_return_never_truthy_witness :
    successful_downloads exExtract = 3 ∧
    (extract_data exExtract ≠ PyRet.pybool true ∧
      run_pipeline_proceeds exExtract = false) :=
  ⟨by decide, extract_return_never_truthy exExtract⟩

/-- **C4** (code_bug evidence).  The claim says a store write failure
rolls the in-flight transaction back so that no partial table exists
afterwards.  In the code the drops (`pg_hook.run`) and the loads
(`df.to_sql` through the SQLAlchemy engine) commit immediately on their
own connections; only the schema DDL sits in the `conn` transaction that
`conn.rollback()` undoes.  Evaluating the embedded `load_data` on a run
where the `to_sql` write into `country_summary` raises: afterwards
`full_data` already holds the new generation, `country_summary` has been
dropped and is gone, and `daily_changes` still holds the prior
generation — a partial state — while the error is re-raised
(`success = false`, no audit entry added). -/
theorem load_partial_state_on_write_failure :
    load_data exFilesAll priorStore failCountryWrite =
      ⟨⟨some (TabVal.run 120), none, some TabVal.prior, true, 7⟩, false⟩ := by
  decide

/-- **C10**. For every failure-free run of `load_data`, each expected
processed CSV that does not exist on disk is skipped: its destination
table is neither dropped nor reloaded (it keeps exactly its previous
contents, or is created empty by the `CREATE TABLE IF NOT EXISTS` schema
step when it did not exist at all), and `load_data` still returns True —
so a run can report load success while refreshing fewer than three
destination tables. -/
theorem load_missing_files_skipped (files : Tbl → Option Nat) (st : Store) :
    (load_data files st (fun _ => false)).success = true ∧
    ∀ t : Tbl, files t = none →
      ((load_data files st (fun _ => false)).store.get t = st.get t ∨
        (st.get t = none ∧
          (load_data files st (fun _ => false)).store.get t = some TabVal.schemaEmpty)) := by
  rw [load_noFail_spec]
  refine ⟨rfl, fun t ht => ?_⟩
  have hg : (Store.mk (loadedTable files st Tbl.full_data)
      (loadedTable files st Tbl.country_summary)
      (loadedTable files st Tbl.daily_changes) true
      (st.audit_load_entries + (if st.etl_metadata_exists then 1 else 0))).get t =
      loadedTable files st t := by
    cases t <;> rfl
  rw [hg]
  unfold loadedTable
  rw [ht]
  cases hs : st.get t
  · exact Or.inr ⟨rfl, rfl⟩
  · exact Or.inl rfl

lemma transform_run_raw (x : PipeState) : (transform_run x).raw = x.raw := by
  unfold transform_run
  cases transform_data x.raw <;> rfl

lemma transform_run_db (x : PipeState) : (transform_run x).db = x.db := by
  unfold transform_run
  cases transform_data x.raw <;> rfl

lemma fetchCat_idem (r c : Option RawFile) :
    fetchCat r (fetchCat r c) = fetchCat r c := by
  cases r <;> rfl

lemma pipeline_raw (remote : RawDir) (s : PipeState) :
    (pipeline_run remote s).raw = (extract_run remote s).raw := by
  unfold pipeline_run load_run
  exact transform_run_raw _

lemma extract_raw_idem (remote : RawDir) (x y : PipeState)
    (h : y.raw = (extract_run remote x).raw) :
    (extract_run remote y).raw = (extract_run remote x).raw := by
  unfold extract_run at h ⊢
  rw [h]
  simp [fetchCat_idem]

lemma pipeline_pd (remote : RawDir) (s : PipeState) :
    (pipeline_run remote s).pd =
      (match transform_data (extract_run remote s).raw with
       | some out => ⟨some out.full, some out.country, some out.daily⟩
       | none => s.pd) := by
  unfold pipeline_run load_run transform_run
  cases transform_data (extract_run remote s).raw <;> rfl

lemma load_run_db_get (x : PipeState) (t : Tbl) :
    (load_run x).db.get t = loadedTable (filesOf x.pd) x.db t := by
  unfold load_run
  rw [load_noFail_spec]
  cases t <;> rfl

lemma pipeline_db_get (remote : RawDir) (s : PipeState) (t : Tbl) :
    (pipeline_run remote s).db.get t =
      loadedTable (filesOf (pipeline_run remote s).pd) s.db t := by
  unfold pipeline_run
  rw [load_run_db_get, transform_run_db]
  rfl

/-- Witness for C10: with a prior-generation store and the
`country_summary` CSV missing, the run succeeds and that table keeps its
previous contents. -/
theorem load_missing_files_skipped_witness :
    exFilesPartial Tbl.country_summary = none ∧
    ((load_data exFilesPartial priorStore (fun _ => false)).success = true ∧
      ((load_data exFilesPartial priorStore (fun _ => false)).store.get Tbl.country_summary =
          priorStore.get Tbl.country_summary ∨
        (priorStore.get Tbl.country_summary = none ∧
          (load_data exFilesPartial priorStore (fun _ => false)).store.get Tbl.country_summary =
            some TabVal.schemaEmpty))) :=
  ⟨rfl, (load_missing_files_skipped exFilesPartial priorStore).1,
    (load_missing_files_skipped exFilesPartial priorStore).2 Tbl.country_summary rfl⟩

/-- **C8**. Running the pipeline a second time against the same remote
content (i.e. on unchanged raw inputs) reproduces the first run's
outputs exactly: the three processed CSV contents are identical, and
every destination table's contents (hence its row count) is identical.
The transform stage is a pure function of the raw files, the processed
CSVs are overwritten rather than appended, and the load stage
drops-and-replaces each table from its CSV.  (The append-only audit rows
and the timestamped metadata text files are not among the compared
outputs, and the claim does not cover them.) -/
theorem pipeline_rerun_outputs_identical (remote : RawDir) (s : PipeState) :
    (pipeline_run remote (pipeline_run remote s)).pd = (pipeline_run remote s).pd ∧
    ∀ t : Tbl, (pipeline_run remote (pipeline_run remote s)).db.get t =
      (pipeline_run remote s).db.get t := by
  have hraw : (extract_run remote (pipeline_run remote s)).raw =
      (extract_run remote s).raw :=
    extract_raw_idem remote s (pipeline_run remote s) (pipeline_raw remote s)
  have hpd1 := pipeline_pd remote s
  have hpd2 := pipeline_pd remote (pipeline_run remote s)
  rw [hraw] at hpd2
  have hpd : (pipeline_run remote (pipeline_run remote s)).pd =
      (pipeline_run remote s).pd := by
    rw [hpd1, hpd2]
    cases h : transform_data (extract_run remote s).raw
    · rw [h] at hpd1
      exact hpd1
    · rfl
  refine ⟨hpd, fun t => ?_⟩
  have h2 := pipeline_db_get remote (pipeline_run remote s) t
  have h1 := pipeline_db_get remote s t
  rw [hpd] at h2
  rw [h2, h1]
  exact loadedTable_stable (filesOf (pipeline_run remote s).pd) s.db
    (pipeline_run remote s).db t h1

/-- **C1**. Take any reconciled observation set, sort it the way step 6
does (by country, sub-region, date — `sort_values` then per-group
`diff().fillna(0).clip(lower=0)`).  For every (primary-region,
sub-region) series key, the delta rows of that series equal the spec's
formula applied to the series in sorted order: the first row's
`new_confirmed`/`new_deaths`/`new_recovered` are 0 (no predecessor), and
every later row's are `max 0 (X[i] - X[i-1])` — negative differences are
clipped to 0 and never surfaced (see `specSeriesDeltas`).  The second
conjunct records that each extracted series is indeed ordered by
ascending date. -/
theorem daily_changes_series (rows : List Obs) (k : String × String) :
    (dailyChanges (sortObs rows)).filter (fun d => d.base.gkey = k) =
      specSeriesDeltas none ((sortObs rows).filter (fun r => r.gkey = k)) ∧
    ((sortObs rows).filter (fun r => r.gkey = k)).Pairwise
      (fun a b => dateLe a.date b.date) := by
  constructor
  · exact dailyAux_filter k (sortObs rows) []
  · have hs : (sortObs rows).Pairwise obsLe := List.sorted_insertionSort obsLe rows
    have hf : ((sortObs rows).filter (fun r => r.gkey = k)).Pairwise obsLe :=
      List.Pairwise.filter _ hs
    refine hf.imp_of_mem ?_
    intro a b ha hb hab
    have hak : a.gkey = k := by
      have h2 := (List.mem_filter.mp ha).2
      simpa using h2
    have hbk : b.gkey = k := by
      have h2 := (List.mem_filter.mp hb).2
      simpa using h2
    have hkey : (a.country, a.province) = (b.country, b.province) := hak.trans hbk.symm
    have hc : a.country = b.country := congrArg Prod.fst hkey
    have hp : a.province = b.province := congrArg Prod.snd hkey
    unfold obsLe at hab
    rcases hab with h | ⟨_, h2⟩
    · rw [hc] at h
      exact absurd h (lt_irrefl _)
    · rcases h2 with h | ⟨_, h3⟩
      · rw [hp] at h
        exact absurd h (lt_irrefl _)
      · exact h3

/-- Witness for C1: the theorem instantiated at a concrete observation
set and series key. -/
theorem daily_changes_series_witness :
    (dailyChanges (sortObs [exMini])).filter (fun d => d.base.gkey = ("C", "Unknown")) =
      specSeriesDeltas none ((sortObs [exMini]).filter (fun r => r.gkey = ("C", "Unknown"))) ∧
    ((sortObs [exMini]).filter (fun r => r.gkey = ("C", "Unknown"))).Pairwise
      (fun a b => dateLe a.date b.date) :=
  daily_changes_series [exMini] ("C", "Unknown")

/-- **C2** (amended).  The merge joins on
`['Province/State', 'Country/Region', 'date']` — lat/long excluded —
with `how='left'`, so, provided the deaths and recovered tables each
hold at most one row per join key and confirmed holds at most one row
per normalized (RegionKey, date), the reconciled output has exactly one
row for every (RegionKey, date) present in the confirmed long table,
none for identities absent from it (in particular none for keys present
only in deaths or recovered), and every output row carries its
confirmed row's lat/long (and confirmed value) through.  Without the
uniqueness provisos the output can fan out; see the counterexample. -/
theorem join_left_backbone (conf : List LongRow) (deaths? recov? : Option (List LongRow))
    (hc : (conf.map LongRow.idKeyFilled).Nodup)
    (hd : ∀ ds, deaths? = some ds → (ds.map LongRow.key).Nodup)
    (hr : ∀ rs, recov? = some rs → (rs.map LongRow.key).Nodup) :
    (∀ k : String × String × ℚ × ℚ × Date,
      (∃ c ∈ conf, c.idKeyFilled = k) →
        ((mergeAll conf deaths? recov?).filter (fun o => o.idKey = k)).length = 1) ∧
    (∀ k : String × String × ℚ × ℚ × Date,
      (∀ c ∈ conf, c.idKeyFilled ≠ k) →
        ((mergeAll conf deaths? recov?).filter (fun o => o.idKey = k)).length = 0) ∧
    (∀ o ∈ mergeAll conf deaths? recov?, ∃ c ∈ conf,
      o.country = c.country ∧ o.province = c.province.getD "Unknown" ∧
      o.lat = c.lat ∧ o.long = c.long ∧ o.date = c.date ∧ o.confirmed = c.value) := by
  rw [mergeAll_eq_map conf deaths? recov? hd hr]
  refine ⟨?_, ?_, ?_⟩
  · intro k hex
    rw [List.filter_map, List.length_map]
    obtain ⟨c, hcm, hck⟩ := hex
    exact length_filter_eq_one_of_nodup_map LongRow.idKeyFilled conf hc k c hcm hck
  · intro k hnone
    rw [List.filter_map, List.length_map]
    exact length_filter_eq_zero_of_not_mem LongRow.idKeyFilled conf k hnone
  · intro o ho
    rcases List.mem_map.mp ho with ⟨c, hcm, rfl⟩
    exact ⟨c, hcm, rfl, rfl, rfl, rfl, rfl, rfl⟩

/-- Counterexample for C2 as frozen: when the deaths table carries two
rows with the same (sub-region, primary-region, date) join key, the left
merge fans out and the reconciled output holds TWO rows for a
(RegionKey, date) pair present (once) in the confirmed long table — not
exactly one. -/
theorem join_fanout_counterexample :
    (∃ c ∈ exConfC2, c.idKeyFilled = exIdKeyC2) ∧
    ((mergeAll exConfC2 (some exDeathsC2) none).filter
        (fun o => o.idKey = exIdKeyC2)).length = 2 := by
  constructor
  · decide
  · decide

/-- Witness for C2 (amended): with unique keys everywhere, the single
confirmed row appears exactly once in the reconciled output. -/
theorem join_left_backbone_witness :
    (exConfW.map LongRow.idKeyFilled).Nodup ∧
    ((mergeAll exConfW (some exDeathsW) none).filter
        (fun o => o.idKey = exIdKeyW)).length = 1 :=
  ⟨by decide,
    (join_left_backbone exConfW (some exDeathsW) none (by decide)
        (fun ds hds => by cases hds; decide)
        (fun rs hrs => by cases hrs)).1 exIdKeyW
      ⟨⟨none, "C", 1, 2, exDate, 3⟩, by decide, by decide⟩⟩

/-- **C5**. For a wide table with M rows and N date columns beyond the
four identity columns, the reshape produces exactly N×M long rows (one
block of M rows per date column, pandas `melt`'s column-major order),
and the row at position `M*j + i` carries the `j`-th header parsed as a
date together with the `i`-th row's identity columns and its cell in
that column, stored under the category-named value field. -/
theorem reshape_long_shape (w : WideTable) (out : List LongRow)
    (h : reshape w = some out)
    (_hrect : ∀ r ∈ w.rows, r.values.length = w.dateCols.length) :
    out.length = w.dateCols.length * w.rows.length ∧
    ∀ j i, j < w.dateCols.length → i < w.rows.length →
      ∃ d, parseMDY (w.dateCols.getD j "") = some d ∧
        out[w.rows.length * j + i]? =
          some { province := (w.rows.getD i defWideRow).province,
                 country := (w.rows.getD i defWideRow).country,
                 lat := (w.rows.getD i defWideRow).lat,
                 long := (w.rows.getD i defWideRow).long,
                 date := d,
                 value := (w.rows.getD i defWideRow).values.getD j 0 } := by
  have hlen : out.length = w.dateCols.length * w.rows.length := by
    rw [mapOption_length parseMelt (melt w) out h, melt_length]
  refine ⟨hlen, fun j i hj hi => ?_⟩
  have hget := mapOption_getElem parseMelt (melt w) out h (w.rows.length * j + i)
  rw [melt_getElem w j i hj hi] at hget
  have hidx : w.rows.length * j + i < out.length := by
    rw [hlen]
    have h1 : w.rows.length * (j + 1) = w.rows.length * j + w.rows.length := by ring
    have h2 : w.rows.length * (j + 1) ≤ w.rows.length * w.dateCols.length :=
      Nat.mul_le_mul_left _ hj
    have h3 : w.rows.length * w.dateCols.length = w.dateCols.length * w.rows.length :=
      Nat.mul_comm _ _
    omega
  have hsome : (out[w.rows.length * j + i]?).isSome := by
    rw [List.getElem?_eq_getElem hidx]
    rfl
  rw [hget] at hsome ⊢
  simp only [Option.some_bind] at hsome ⊢
  unfold parseMelt at hsome ⊢
  dsimp only at hsome ⊢
  cases hp : parseMDY (w.dateCols.getD j "") with
  | none =>
    rw [hp] at hsome
    simp at hsome
  | some d => exact ⟨d, rfl, rfl⟩

/-- Witness for C5: a one-row, one-date-column wide table reshapes to
one long row with the parsed date and the cell value. -/
theorem reshape_long_shape_witness :
    reshape exWide = some exWideLong ∧
    (∀ r ∈ exWide.rows, r.values.length = exWide.dateCols.length) ∧
    exWideLong.length = exWide.dateCols.length * exWide.rows.length :=
  ⟨by decide, by decide,
    (reshape_long_shape exWide exWideLong (by decide) (by decide)).1⟩

/-- **C9**. A raw category file that exists but on which `pd.read_csv`
raises (empty or unparseable — a state `extract_data` can leave behind,
since it writes the response body before verifying it) is not treated as
"dataset absent": the exception propagates to the stage's outer handler
and `transform_data` returns False.  Only a wholly non-existent file
(`os.path.exists` false) is skipped as an absent category, in which case
the run can still succeed. -/
theorem transform_bad_file_fails (raw : RawDir) :
    ((raw.confirmed = some RawFile.bad ∨ raw.deaths = some RawFile.bad ∨
        raw.recovered = some RawFile.bad) → transform_success raw = false) ∧
    (∀ w out, raw.confirmed = some (RawFile.table w) → reshape w = some out →
      raw.deaths = none → raw.recovered = none → transform_success raw = true) := by
  constructor
  · intro h
    unfold transform_success transform_data
    rcases h with h | h | h
    · rw [h]
      rfl
    · rw [h]
      cases readCategory raw.confirmed <;> rfl
    · rw [h]
      cases readCategory raw.confirmed
      · rfl
      · cases readCategory raw.deaths <;> rfl
  · intro w out hc hre hd hr
    unfold transform_success transform_data
    rw [hc, hd, hr]
    simp [readCategory, hre]

/-- Witness for C9: a run with a good confirmed file and an unreadable
deaths file fails; the same confirmed file with the other two categories
wholly absent succeeds. -/
theorem transform_bad_file_fails_witness :
    transform_success ⟨some (RawFile.table exWide), some RawFile.bad, none⟩ = false ∧
    transform_success ⟨some (RawFile.table exWide), none, none⟩ = true :=
  ⟨(transform_bad_file_fails ⟨some (RawFile.table exWide), some RawFile.bad, none⟩).1
      (Or.inr (Or.inl rfl)),
    (transform_bad_file_fails ⟨some (RawFile.table exWide), none, none⟩).2
      exWide exWideLong rfl (by decide) rfl rfl⟩

/-- **C6** (amended).  At both grains the code computes
`np.where(confirmed > 0, deaths / confirmed * 100, 0)`: the rate is
`deaths/confirmed*100` when confirmed > 0 and exactly 0 otherwise — in
particular 0 when confirmed = 0, so no division by zero ever occurs (the
division is only taken under the `confirmed > 0` guard).  The original
claim's split "`0` when confirmed = 0, the ratio otherwise" differs on
(degenerate) rows with negative confirmed, where the code also yields 0;
see the counterexample. -/
theorem mortality_rate_guard (conf : List LongRow)
    (deaths? recov? : Option (List LongRow)) (obs : List Obs) :
    (∀ o ∈ mergeAll conf deaths? recov?,
        o.mortality_rate = if o.confirmed > 0 then o.deaths / o.confirmed * 100 else 0) ∧
    (∀ cr ∈ countryAgg obs,
        cr.mortality_rate = if cr.confirmed > 0 then cr.deaths / cr.confirmed * 100 else 0) := by
  constructor
  · intro o ho
    unfold mergeAll at ho
    rcases List.mem_map.mp ho with ⟨p, _, rfl⟩
    rfl
  · intro cr hcr
    unfold countryAgg at hcr
    rcases List.mem_map.mp hcr with ⟨k, _, rfl⟩
    rfl

/-- Counterexample for C6 as frozen: on a row with confirmed = -1 and
deaths = 5 (both read straight from raw cells), the code yields
mortality_rate = 0, while the claim ("deaths/confirmed*100 whenever
confirmed ≠ 0") demands -500. -/
theorem mortality_rate_negative_counterexample :
    mergeAll exConfNeg (some exDeathsPos) none = [exNegObs] ∧
    exNegObs.confirmed = -1 ∧
    exNegObs.mortality_rate = 0 ∧
    exNegObs.deaths / exNegObs.confirmed * 100 = -500 := by
  refine ⟨rfl, rfl, ?_, ?_⟩
  · show calcMortality (-1) ((some (5 : ℚ)).getD 0) = 0
    norm_num [calcMortality]
  · show (5 : ℚ) / (-1) * 100 = -500
    norm_num

/-- Witness for C6 (amended), at both grains. -/
theorem mortality_rate_guard_witness :
    (exObsW ∈ mergeAll exConfW none none ∧
      exObsW.mortality_rate =
        if exObsW.confirmed > 0 then exObsW.deaths / exObsW.confirmed * 100 else 0) ∧
    (exAggRow ∈ countryAgg [exMini] ∧
      exAggRow.mortality_rate =
        if exAggRow.confirmed > 0 then exAggRow.deaths / exAggRow.confirmed * 100 else 0) :=
  ⟨⟨List.mem_singleton.mpr rfl,
      (mortality_rate_guard exConfW none none []).1 exObsW (List.mem_singleton.mpr rfl)⟩,
    ⟨List.mem_singleton.mpr rfl,
      (mortality_rate_guard [] none none [exMini]).2 exAggRow (List.mem_singleton.mpr rfl)⟩⟩

/-- **C7**. Every country summary row carries, for each of confirmed,
deaths, recovered and active, exactly the sum of that field over all
reconciled observation rows (all sub-regions) of its
(primary-region, date) group; its mortality rate is recomputed from the
summed confirmed and deaths through the same `confirmed > 0` guard (not
averaged); and the summary holds exactly one row for that group. -/
theorem country_summary_sums (obs : List Obs) (cr : CountryRow)
    (hcr : cr ∈ countryAgg obs) :
    cr.confirmed = sumBy (obs.filter (fun o => o.ckey = (cr.country, cr.date))) Obs.confirmed ∧
    cr.deaths = sumBy (obs.filter (fun o => o.ckey = (cr.country, cr.date))) Obs.deaths ∧
    cr.recovered = sumBy (obs.filter (fun o => o.ckey = (cr.country, cr.date))) Obs.recovered ∧
    cr.active = sumBy (obs.filter (fun o => o.ckey = (cr.country, cr.date))) Obs.active ∧
    cr.mortality_rate = calcMortality cr.confirmed cr.deaths ∧
    ((countryAgg obs).filter
        (fun c => (c.country, c.date) = (cr.country, cr.date))).length = 1 := by
  unfold countryAgg at hcr
  rcases List.mem_map.mp hcr with ⟨k, hk, rfl⟩
  refine ⟨rfl, rfl, rfl, rfl, rfl, ?_⟩
  unfold countryAgg
  rw [List.filter_map, List.length_map]
  exact length_filter_eq_one_of_nodup_map (fun k2 : String × Date => k2)
    ((obs.map Obs.ckey).dedup)
    (by rw [List.map_id']; exact List.nodup_dedup _) k k hk rfl

/-- Witness for C7: the aggregation of a single observation row. -/
theorem country_summary_sums_witness :
    exAggRow ∈ countryAgg [exMini] ∧
    exAggRow.confirmed =
      sumBy ([exMini].filter (fun o => o.ckey = (exAggRow.country, exAggRow.date)))
        Obs.confirmed :=
  ⟨List.mem_singleton.mpr rfl,
    (country_summary_sums [exMini] exAggRow (List.mem_singleton.mpr rfl)).1⟩

/-- Witness for C8: the theorem instantiated at a concrete remote state
and a concrete starting pipeline state. -/
theorem pipeline_rerun_outputs_identical_witness :
    (pipeline_run ⟨none, none, none⟩
        (pipeline_run ⟨none, none, none⟩ ⟨⟨none, none, none⟩, ⟨none, none, none⟩, priorStore⟩)).pd =
      (pipeline_run ⟨none, none, none⟩ ⟨⟨none, none, none⟩, ⟨none, none, none⟩, priorStore⟩).pd ∧
    ∀ t : Tbl,
      (pipeline_run ⟨none, none, none⟩
          (pipeline_run ⟨none, none, none⟩ ⟨⟨none, none, none⟩, ⟨none, none, none⟩, priorStore⟩)).db.get t =
        (pipeline_run ⟨none, none, none⟩ ⟨⟨none, none, none⟩, ⟨none, none, none⟩, priorStore⟩).db.get t :=
  pipeline_rerun_outputs_identical ⟨none, none, none⟩
    ⟨⟨none, none, none⟩, ⟨none, none, none⟩, priorStore⟩

end CovidETL
